import Mathlib

/-!
Verification of the MCP client conversation loop
(`src/mcp/mcp-client/client.py`, class `MCPClient`).

The embedding models the observable behaviour of `process_query` and the
three provider paths `_process_with_anthropic`, `_process_with_gemini` and
`_process_with_openrouter`.  External collaborators are abstracted:

* the tool host (`self.session`) is a `Host`: the catalog returned by
  `list_tools` plus a `call` function for `call_tool`, whose `Except.error`
  case models a raised Python exception;
* each model backend is an oracle indexed by the number of requests already
  issued within one query (`Nat → <provider response type>`);
* every externally visible action (catalog fetch, tool invocation, backend
  request) is recorded in an `Effect` trace, and backend requests record the
  message list and the tool declarations sent with them.

Tool arguments are kept as opaque strings (the Python `json.loads`
round-trip and dict rendering are not modelled; the argument string is
passed through unchanged).
-/

namespace Kosh

/-- A tool descriptor as assembled from `list_tools` at client.py lines
97-102: name, description and input schema. The schema is opaque. -/
structure ToolDescr where
  name : String
  description : String
  inputSchema : String
deriving Repr, DecidableEq

/-- One entry of an OpenRouter `tool_calls` array (client.py lines 252-254,
265-274): id, function name and raw argument string. -/
structure ToolCall where
  id : String
  name : String
  arguments : String
deriving Repr, DecidableEq

/-- Result object returned by `session.call_tool`; the code only reads
`result.content` (client.py lines 151, 209, 280). -/
structure ToolResult where
  content : String
deriving Repr, DecidableEq

/-- One entry of a Python `messages` list. `content` is `none` when the
Python value is `None`; `toolCalls` is nonempty only on OpenRouter
assistant turns; `toolCallId` only on OpenRouter tool turns. -/
structure Msg where
  role : String
  content : Option String
  toolCalls : List ToolCall := []
  toolCallId : Option String := none
deriving Repr, DecidableEq

/-- An externally visible action of the client: a `list_tools` fetch, a
`call_tool` invocation, or a request to a model backend.  A backend request
records the tool declarations passed with it (`none` when the request
carries no tools) and the message list sent (empty for Gemini, whose chat
history lives inside the SDK object). -/
inductive Effect where
  | listTools : Effect
  | callTool (name : String) (args : String) : Effect
  | backendSend (tools? : Option (List ToolDescr)) (msgs : List Msg) : Effect
deriving Repr, DecidableEq

/-- The tool host behind `self.session`: the catalog its `list_tools`
returns and the behaviour of `call_tool` (`Except.error e` models a raised
exception with text `e`). -/
structure Host where
  tools : List ToolDescr
  call : String → String → Except String ToolResult

/-- Client configuration from `MCPClient.__init__` (client.py lines 17-43):
whether each provider key is present in the environment and the current
model string.  `self.anthropic` is constructed unconditionally at line 24;
`anthropicKey` records whether a key is configured, which the code never
inspects. -/
structure Config where
  anthropicKey : Bool
  geminiKey : Bool
  openrouterKey : Bool
  currentModel : String
deriving Repr, DecidableEq

/-- Observable outcome of one `process_query` (or one provider path):
the returned string or propagated exception, the final `messages` list,
and the trace of external actions. -/
structure RunOut where
  result : Except String String
  msgs : List Msg
  effects : List Effect

/-- Is an `Except` a success? -/
def exceptOk {α : Type} : Except String α → Bool
  | .ok _ => true
  | .error _ => false

deriving instance DecidableEq for Except

/-- Python `str.startswith`, as a character-prefix test. -/
def strStartsWith (s p : String) : Bool := p.data.isPrefixOf s.data

/-! ### Anthropic path (client.py lines 114-163) -/

/-- One content block of an Anthropic response (client.py lines 131-136).
A `tool_use` block additionally carries an optional `text` attribute,
modelling the `hasattr(content, 'text')` check at line 144. -/
inductive AnthBlock where
  | text (s : String) : AnthBlock
  | toolUse (name : String) (args : String) (text? : Option String) : AnthBlock
deriving Repr, DecidableEq

/-- A native Anthropic response: its list of content blocks. -/
structure AnthResponse where
  content : List AnthBlock
deriving Repr, DecidableEq

/-- `response.content[0].text` at client.py line 161: IndexError on an
empty content list, AttributeError when the first block is a `tool_use`
block without a `text` attribute. -/
def AnthResponse.firstText : AnthResponse → Except String String
  | ⟨[]⟩ => .error "IndexError: list index out of range"
  | ⟨.text s :: _⟩ => .ok s
  | ⟨.toolUse _ _ (some t) :: _⟩ => .ok t
  | ⟨.toolUse _ _ none :: _⟩ => .error "AttributeError: tool_use block has no text"

/-- The `if hasattr(content, 'text') and content.text:` append at client.py
lines 144-148: an assistant turn is recorded only when the tool_use block
has a non-empty `text` attribute. -/
def anthToolText : Option String → List Msg
  | some t => if t = "" then [] else [{ role := "assistant", content := some t }]
  | none => []

/-- Loop state for the anthropic path: `messages`, `final_text`, the index
of the next backend request, and the effect trace. -/
structure AnthSt where
  msgs : List Msg
  finalText : List String
  k : Nat
  effects : List Effect

/-- The `for content in response.content:` loop of client.py lines 131-161.
The iteration ranges over the FIRST response's blocks (rebinding `response`
inside the body does not change the iterator).  Each `tool_use` block
invokes the tool (a raised exception aborts the run), extends `messages`,
and issues a follow-up request WITHOUT tools (lines 155-159), whose first
block's text is appended to `final_text` (line 161). -/
def anthLoop (host : Host) (ab : Nat → AnthResponse) :
    List AnthBlock → AnthSt → AnthSt × Except String Unit
  | [], st => (st, .ok ())
  | .text s :: rest, st =>
      anthLoop host ab rest { st with finalText := st.finalText ++ [s] }
  | .toolUse name args t? :: rest, st =>
      match host.call name args with
      | .error e => ({ st with effects := st.effects ++ [.callTool name args] }, .error e)
      | .ok res =>
          let newMsgs := st.msgs ++ anthToolText t? ++
            [{ role := "user", content := some res.content }]
          let newFt := st.finalText ++
            ["[Calling tool " ++ name ++ " with args " ++ args ++ "]"]
          let newEff := st.effects ++ [.callTool name args, .backendSend none newMsgs]
          match (ab st.k).firstText with
          | .error e =>
              ({ msgs := newMsgs, finalText := newFt, k := st.k + 1, effects := newEff },
               .error e)
          | .ok t =>
              anthLoop host ab rest
                { msgs := newMsgs, finalText := newFt ++ [t], k := st.k + 1,
                  effects := newEff }

/-- `_process_with_anthropic` (client.py lines 114-163): the initial
request carries the full catalog (lines 120-125); then the block loop runs
and `"\n".join(final_text)` is returned. -/
def processWithAnthropic (host : Host) (ab : Nat → AnthResponse) (query : String) : RunOut :=
  let msgs0 : List Msg := [{ role := "user", content := some query }]
  let st0 : AnthSt :=
    { msgs := msgs0, finalText := [], k := 1,
      effects := [.backendSend (some host.tools) msgs0] }
  let r := anthLoop host ab (ab 0).content st0
  { result := match r.2 with
      | .ok _ => .ok (String.intercalate "\n" r.1.finalText)
      | .error e => .error e,
    msgs := r.1.msgs, effects := r.1.effects }

/-! ### Gemini path (client.py lines 165-213) -/

/-- One part of a Gemini candidate's content; `functionCall?` models the
`hasattr(part, 'function_call')` access at lines 197-200, carrying the
function name and raw argument string when present. -/
structure GemPart where
  functionCall? : Option (String × String) := none
deriving Repr, DecidableEq

/-- One candidate of a Gemini response: its content parts. -/
structure GemCandidate where
  parts : List GemPart
deriving Repr, DecidableEq

/-- A native Gemini response: its `.text` and its candidates. -/
structure GemResponse where
  text : String
  candidates : List GemCandidate
deriving Repr, DecidableEq

/-- The parts visited by the nested loops at client.py lines 194-196:
all parts of all candidates, in order. -/
def gemAllParts : List GemCandidate → List GemPart
  | [] => []
  | c :: rest => c.parts ++ gemAllParts rest

/-- Loop state for the gemini path: `final_text`, next request index, and
the effect trace (the chat history is internal to the SDK object, so no
message list is tracked). -/
structure GemSt where
  finalText : List String
  k : Nat
  effects : List Effect

/-- The function-call handling of client.py lines 196-211: each part with a
function call invokes the tool, then sends the result text back on the chat
(which retains the tool declarations from `start_chat`), appending the new
response's text. -/
def gemParts (host : Host) (gb : Nat → GemResponse) (catalog : List ToolDescr) :
    List GemPart → GemSt → GemSt × Except String Unit
  | [], st => (st, .ok ())
  | ⟨none⟩ :: rest, st => gemParts host gb catalog rest st
  | ⟨some (name, args)⟩ :: rest, st =>
      match host.call name args with
      | .error e => ({ st with effects := st.effects ++ [.callTool name args] }, .error e)
      | .ok _res =>
          let r := gb st.k
          gemParts host gb catalog rest
            { finalText := st.finalText ++
                ["[Calling tool " ++ name ++ " with args " ++ args ++ "]", r.text],
              k := st.k + 1,
              effects := st.effects ++
                [.callTool name args, .backendSend (some catalog) []] }

/-- `_process_with_gemini` (client.py lines 165-213): a missing
`GEMINI_API_KEY` short-circuits with a message (lines 167-168); otherwise
the query is sent on a chat started with the converted catalog, and the
candidate parts are scanned for function calls. -/
def processWithGemini (cfg : Config) (host : Host) (gb : Nat → GemResponse)
    (_query : String) : RunOut :=
  if cfg.geminiKey then
    let r0 := gb 0
    let st0 : GemSt :=
      { finalText := [r0.text], k := 1,
        effects := [.backendSend (some host.tools) []] }
    let r := gemParts host gb host.tools (gemAllParts r0.candidates) st0
    { result := match r.2 with
        | .ok _ => .ok (String.intercalate "\n" r.1.finalText)
        | .error e => .error e,
      msgs := [], effects := r.1.effects }
  else
    { result := .ok "Gemini API key not configured. Please set GEMINI_API_KEY in your .env file.",
      msgs := [], effects := [] }

/-! ### OpenRouter path (client.py lines 215-293) -/

/-- The message of one OpenRouter choice: optional content and the
`tool_calls` array (empty models Python `None` or `[]`, both falsy at
line 251). -/
structure ORMessage where
  content : Option String
  toolCalls : List ToolCall
deriving Repr, DecidableEq

/-- One choice of an OpenRouter response. -/
structure ORChoice where
  message : ORMessage
deriving Repr, DecidableEq

/-- A native OpenRouter response: its choices. -/
structure ORResponse where
  choices : List ORChoice
deriving Repr, DecidableEq

/-- Loop state for the openrouter path. -/
structure ORSt where
  msgs : List Msg
  finalText : List String
  k : Nat
  effects : List Effect

/-- The `for tool_call in message.tool_calls:` loop of client.py lines
252-291.  The iteration ranges over the FIRST response's tool calls;
each one invokes the tool, appends an assistant turn carrying the first
message's content plus that single call, appends a tool turn with the
result, and issues a follow-up request WITHOUT tools (lines 284-288);
the new response's first choice content (or nothing, when it has no
choices) is appended to `final_text`. -/
def orLoop (host : Host) (ob : Nat → ORResponse) (firstContent : Option String) :
    List ToolCall → ORSt → ORSt × Except String Unit
  | [], st => (st, .ok ())
  | tc :: rest, st =>
      match host.call tc.name tc.arguments with
      | .error e =>
          ({ st with effects := st.effects ++ [.callTool tc.name tc.arguments] }, .error e)
      | .ok res =>
          let newMsgs := st.msgs ++
            [{ role := "assistant", content := firstContent, toolCalls := [tc] },
             { role := "tool", content := some res.content, toolCallId := some tc.id }]
          let ft1 := st.finalText ++
            ["[Calling tool " ++ tc.name ++ " with args " ++ tc.arguments ++ "]"]
          let newEff := st.effects ++
            [.callTool tc.name tc.arguments, .backendSend none newMsgs]
          let r := ob st.k
          let ft2 := match r.choices.head? with
            | some ch => ft1 ++ [ch.message.content.getD ""]
            | none => ft1
          orLoop host ob firstContent rest
            { msgs := newMsgs, finalText := ft2, k := st.k + 1, effects := newEff }

/-- `_process_with_openrouter` (client.py lines 215-293): a missing
`OPENROUTER_API_KEY` short-circuits with a message (lines 217-218);
otherwise the initial request carries the converted catalog (lines
235-241), and the first choice's content and tool calls are processed. -/
def processWithOpenrouter (cfg : Config) (host : Host) (ob : Nat → ORResponse)
    (query : String) : RunOut :=
  if cfg.openrouterKey then
    let msgs0 : List Msg := [{ role := "user", content := some query }]
    let r0 := ob 0
    let eff0 : List Effect := [.backendSend (some host.tools) msgs0]
    match r0.choices.head? with
    | none => { result := .ok "", msgs := msgs0, effects := eff0 }
    | some ch =>
        let message := ch.message
        let ft0 := [message.content.getD ""]
        if message.toolCalls.isEmpty then
          { result := .ok (String.intercalate "\n" ft0), msgs := msgs0, effects := eff0 }
        else
          let r := orLoop host ob message.content message.toolCalls
            { msgs := msgs0, finalText := ft0, k := 1, effects := eff0 }
          { result := match r.2 with
              | .ok _ => .ok (String.intercalate "\n" r.1.finalText)
              | .error e => .error e,
            msgs := r.1.msgs, effects := r.1.effects }
  else
    { result := .ok "OpenRouter API key not configured. Please set OPENROUTER_API_KEY in your .env file.",
      msgs := [], effects := [] }

/-! ### Dispatch, session and chat loop -/

/-- `process_query` (client.py lines 95-112): fetch the tool list (line
97), then dispatch on string prefixes of `self.current_model` (lines
104-112); an unmatched prefix returns the `Unknown model provider` string
without touching any backend or tool. -/
def processQuery (cfg : Config) (host : Host) (ab : Nat → AnthResponse)
    (gb : Nat → GemResponse) (ob : Nat → ORResponse) (query : String) : RunOut :=
  let out :=
    if strStartsWith cfg.currentModel "anthropic/" || strStartsWith cfg.currentModel "claude" then
      processWithAnthropic host ab query
    else if strStartsWith cfg.currentModel "gemini" then
      processWithGemini cfg host gb query
    else if strStartsWith cfg.currentModel "openai/" || strStartsWith cfg.currentModel "openrouter/" then
      processWithOpenrouter cfg host ob query
    else
      { result := .ok ("Unknown model provider for: " ++ cfg.currentModel),
        msgs := [], effects := [] }
  { out with effects := Effect.listTools :: out.effects }

/-- Effects of the queries of one interactive session, in order: each
query runs `process_query` afresh (client.py line 320). -/
def sessionQueryEffects (cfg : Config) (host : Host) (ab : Nat → AnthResponse)
    (gb : Nat → GemResponse) (ob : Nat → ORResponse) : List String → List Effect
  | [] => []
  | q :: rest =>
      (processQuery cfg host ab gb ob q).effects ++
        sessionQueryEffects cfg host ab gb ob rest

/-- Effects of one session: `connect_to_server` fetches the tool list once
(client.py line 70), then each query of `chat_loop` runs `process_query`. -/
def sessionEffects (cfg : Config) (host : Host) (ab : Nat → AnthResponse)
    (gb : Nat → GemResponse) (ob : Nat → ORResponse) (qs : List String) : List Effect :=
  Effect.listTools :: sessionQueryEffects cfg host ab gb ob qs

/-- The output printed for one plain query step of `chat_loop` (client.py
lines 319-324): the `process_query` result, or — when it raises — the
`Error:` line of the top-level handler, after which the loop continues. -/
def chatRespond (cfg : Config) (host : Host) (ab : Nat → AnthResponse)
    (gb : Nat → GemResponse) (ob : Nat → ORResponse) (query : String) : String :=
  match (processQuery cfg host ab gb ob query).result with
  | .ok s => "\n" ++ s
  | .error e => "\nError: " ++ e

/-! ### Effect counting -/

/-- Number of `list_tools` fetches in a trace. -/
def countListTools : List Effect → Nat
  | [] => 0
  | .listTools :: rest => 1 + countListTools rest
  | _ :: rest => countListTools rest

/-- Number of backend requests (model round-trips) in a trace. -/
def countSends : List Effect → Nat
  | [] => 0
  | .backendSend _ _ :: rest => 1 + countSends rest
  | _ :: rest => countSends rest

/-- Number of `call_tool` invocations in a trace. -/
def countToolCalls : List Effect → Nat
  | [] => 0
  | .callTool _ _ :: rest => 1 + countToolCalls rest
  | _ :: rest => countToolCalls rest

/-- Number of `tool_use` blocks in an Anthropic content list. -/
def countToolUses : List AnthBlock → Nat
  | [] => 0
  | .toolUse _ _ _ :: rest => 1 + countToolUses rest
  | .text _ :: rest => countToolUses rest

/-- The text blocks of an Anthropic content list, in order. -/
def textsOf : List AnthBlock → List String
  | [] => []
  | .text s :: rest => s :: textsOf rest
  | .toolUse _ _ _ :: rest => textsOf rest

/-! ### Response normalization -/

/-- A normalized response segment: free text or a tool-call request. -/
inductive Segment where
  | textSeg (s : String) : Segment
  | toolCallSeg (name : String) (args : String) : Segment
deriving Repr, DecidableEq

/-- The segment classification the anthropic loop performs on each content
block (client.py lines 131-136: `content.type == 'text'` vs `'tool_use'`). -/
def normalizeAnthropic (r : AnthResponse) : List Segment :=
  r.content.map fun b =>
    match b with
    | .text s => .textSeg s
    | .toolUse n a _ => .toolCallSeg n a

/-- The segment extraction the openrouter path performs on the first
choice (client.py lines 247-254): the message content, then its tool
calls in order. -/
def normalizeOpenrouter (r : ORResponse) : List Segment :=
  match r.choices.head? with
  | none => []
  | some ch =>
      Segment.textSeg (ch.message.content.getD "") ::
        ch.message.toolCalls.map fun tc => .toolCallSeg tc.name tc.arguments

/-- The segment extraction the gemini path performs (client.py lines
190-200): the response text, then the function calls found in the
candidate parts, in order. -/
def normalizeGemini (r : GemResponse) : List Segment :=
  Segment.textSeg r.text ::
    (gemAllParts r.candidates).filterMap fun p =>
      p.functionCall?.map fun nc => Segment.toolCallSeg nc.1 nc.2

/-! ### Transcript balance -/

/-- Occurrences of call id `c` among a list of tool-call requests. -/
def tcCount : List ToolCall → String → Nat
  | [], _ => 0
  | tc :: rest, c => (if tc.id = c then 1 else 0) + tcCount rest c

/-- Tool-call requests with id `c` recorded in a message list. -/
def reqCount : List Msg → String → Nat
  | [], _ => 0
  | m :: rest, c => tcCount m.toolCalls c + reqCount rest c

/-- Tool-result turns for id `c` recorded in a message list. -/
def resCount : List Msg → String → Nat
  | [], _ => 0
  | m :: rest, c =>
      (if m.role = "tool" ∧ m.toolCallId = some c then 1 else 0) + resCount rest c

/-- Every tool-call request recorded in the message list has exactly one
matching tool-result turn: for every call id, requests and results agree
in number. -/
def sendBalanced (msgs : List Msg) : Prop :=
  ∀ c, reqCount msgs c = resCount msgs c

/-- A backend-request effect whose recorded message list is balanced;
other effects are unconstrained. -/
def sendOK : Effect → Prop
  | .backendSend _ msgs => sendBalanced msgs
  | _ => True

/-- A message that records neither a tool-call request nor a tool result. -/
def plainMsg (m : Msg) : Prop :=
  m.toolCalls = [] ∧ m.role ≠ "tool"

/-! ### Concrete fixtures for witnesses and counterexamples -/

/-- Fixture: catalog with one tool `known`; `call_tool` always succeeds,
echoing the requested tool name. -/
def hostEcho : Host :=
  { tools := [⟨"known", "d", "s"⟩], call := fun n _ => .ok ⟨"hosted:" ++ n⟩ }

/-- Fixture: `call_tool` always raises with text `boom`. -/
def hostRaise : Host :=
  { tools := [⟨"known", "d", "s"⟩], call := fun _ _ => .error "boom" }

/-- Fixture: catalog with one tool `lookup`; `call_tool` returns `42`. -/
def host42 : Host :=
  { tools := [⟨"lookup", "d", "s"⟩], call := fun _ _ => .ok ⟨"42"⟩ }

/-- Fixture: every anthropic response holds a text block and a tool_use
block, so every response requests a tool. -/
def abAlwaysTool : Nat → AnthResponse := fun _ => ⟨[.text "hi", .toolUse "t" "a" none]⟩

/-- Fixture: the first anthropic response holds ten tool_use blocks behind
a text block; every follow-up response also requests a tool. -/
def abManyTools : Nat → AnthResponse := fun i =>
  if i = 0 then ⟨AnthBlock.text "x" :: List.replicate 10 (.toolUse "t" "a" none)⟩
  else ⟨[.text "x", .toolUse "t" "a" none]⟩

/-- Fixture: first anthropic response holds a single tool_use block for a
tool `mystery` absent from any fixture catalog; follow-ups are text. -/
def abMystery : Nat → AnthResponse := fun i =>
  if i = 0 then ⟨[.toolUse "mystery" "a" none]⟩ else ⟨[.text "done"]⟩

/-- Fixture: scenario 2 backend — first response one `lookup` tool call,
second response the text `The answer is 42`. -/
def abScenario2 : Nat → AnthResponse := fun i =>
  if i = 0 then ⟨[.toolUse "lookup" "qx" none]⟩ else ⟨[.text "The answer is 42"]⟩

/-- Fixture: single text response `4`. -/
def abText4 : Nat → AnthResponse := fun _ => ⟨[.text "4"]⟩

/-- Fixture: response with two text blocks and no tool calls. -/
def abTexts : Nat → AnthResponse := fun _ => ⟨[.text "a", .text "b"]⟩

/-- Fixture: trivial gemini backend. -/
def gbNone : Nat → GemResponse := fun _ => ⟨"", []⟩

/-- Fixture: trivial openrouter backend with no choices. -/
def obNone : Nat → ORResponse := fun _ => ⟨[]⟩

/-- Fixture: first openrouter response carries one tool call `t` with id
`id1`; the follow-up response is plain text `done`. -/
def obOneCall : Nat → ORResponse := fun i =>
  if i = 0 then ⟨[⟨⟨some "", [⟨"id1", "t", "a"⟩]⟩⟩]⟩ else ⟨[⟨⟨some "done", []⟩⟩]⟩

/-- Fixture configs: current model per provider, keys as noted. -/
def cfgClaude : Config := ⟨false, false, false, "claude-3-5-sonnet-20241022"⟩

/-- Fixture: anthropic model selected, openrouter key present. -/
def cfgClaudeOR : Config := ⟨false, false, true, "claude-3-5-sonnet-20241022"⟩

/-- Fixture: gemini model selected, gemini key missing. -/
def cfgGemNoKey : Config := ⟨true, false, true, "gemini-2.0-flash"⟩

/-- Fixture: openrouter model selected, openrouter key missing. -/
def cfgORNoKey : Config := ⟨true, true, false, "openai/gpt-4o"⟩

/-- Fixture: openrouter model selected, openrouter key present. -/
def cfgOR : Config := ⟨true, true, true, "openai/gpt-4o"⟩

/-- Fixture: openrouter response with one choice, text `4`, no tool calls. -/
def obText4 : Nat → ORResponse := fun _ => ⟨[⟨⟨some "4", []⟩⟩]⟩

/-- Fixture: a model string matching no provider prefix. -/
def cfgUnknown : Config := ⟨true, true, true, "mistral-7b"⟩

/-! ### Helper lemmas about the loop embeddings -/

theorem countListTools_append (a b : List Effect) :
    countListTools (a ++ b) = countListTools a + countListTools b := by
  induction a with
  | nil => simp [countListTools]
  | cons e rest ih => cases e <;> simp [countListTools, ih] <;> omega

theorem countSends_append (a b : List Effect) :
    countSends (a ++ b) = countSends a + countSends b := by
  induction a with
  | nil => simp [countSends]
  | cons e rest ih => cases e <;> simp [countSends, ih] <;> omega

theorem anthLoop_effects_extend (host : Host) (ab : Nat → AnthResponse)
    (blocks : List AnthBlock) (st : AnthSt) :
    ∃ t, (anthLoop host ab blocks st).1.effects = st.effects ++ t ∧
      countListTools t = 0 ∧
      ∀ tls msgs, Effect.backendSend (some tls) msgs ∉ t := by
  induction blocks, st using anthLoop.induct host ab with
  | case1 st =>
      exact ⟨[], by simp [anthLoop], by simp [countListTools], by simp⟩
  | case2 s rest st ih =>
      simpa [anthLoop] using ih
  | case3 name args t? rest st e hc =>
      exact ⟨[.callTool name args], by simp [anthLoop, hc], by simp [countListTools], by simp⟩
  | case4 name args t? rest st res hc e hf =>
      refine ⟨[.callTool name args,
        .backendSend none (st.msgs ++ anthToolText t? ++
          [{ role := "user", content := some res.content }])], ?_, ?_, ?_⟩
      · simp [anthLoop, hc, hf]
      · simp [countListTools]
      · simp
  | case5 name args t? rest st res hc newMsgs newFt newEff t hf ih =>
      obtain ⟨tl, h1, h2, h3⟩ := ih
      refine ⟨Effect.callTool name args :: Effect.backendSend none newMsgs :: tl, ?_, ?_, ?_⟩
      · simp only [anthLoop, hc, hf]
        rw [h1]
        unfold newEff
        simp
      · simp [countListTools, h2]
      · intro tls msgs hmem
        simp only [List.mem_cons] at hmem
        rcases hmem with h | h | h
        · exact absurd h (by simp)
        · exact absurd h (by simp)
        · exact h3 tls msgs h

theorem orLoop_effects_extend (host : Host) (ob : Nat → ORResponse) (fc : Option String)
    (tcs : List ToolCall) (st : ORSt) :
    ∃ t, (orLoop host ob fc tcs st).1.effects = st.effects ++ t ∧
      countListTools t = 0 ∧
      ∀ tls msgs, Effect.backendSend (some tls) msgs ∉ t := by
  induction tcs, st using orLoop.induct host ob fc with
  | case1 st =>
      exact ⟨[], by simp [orLoop], by simp [countListTools], by simp⟩
  | case2 tc rest st e hc =>
      exact ⟨[.callTool tc.name tc.arguments], by simp [orLoop, hc],
        by simp [countListTools], by simp⟩
  | case3 tc rest st res hc newMsgs ft1 newEff r ft2 ih =>
      obtain ⟨tl, h1, h2, h3⟩ := ih
      refine ⟨Effect.callTool tc.name tc.arguments :: Effect.backendSend none newMsgs :: tl,
        ?_, ?_, ?_⟩
      · simp only [orLoop, hc]
        rw [h1]
        unfold newEff
        simp
      · simp [countListTools, h2]
      · intro tls msgs hmem
        simp only [List.mem_cons] at hmem
        rcases hmem with h | h | h
        · exact absurd h (by simp)
        · exact absurd h (by simp)
        · exact h3 tls msgs h

theorem gemParts_effects_extend (host : Host) (gb : Nat → GemResponse)
    (catalog : List ToolDescr) (ps : List GemPart) (st : GemSt) :
    ∃ t, (gemParts host gb catalog ps st).1.effects = st.effects ++ t ∧
      countListTools t = 0 := by
  induction ps, st using gemParts.induct host gb catalog with
  | case1 st =>
      exact ⟨[], by simp [gemParts], by simp [countListTools]⟩
  | case2 rest st ih =>
      simpa [gemParts] using ih
  | case3 name args rest st e hc =>
      exact ⟨[.callTool name args], by simp [gemParts, hc], by simp [countListTools]⟩
  | case4 name args rest st res hc r ih =>
      obtain ⟨tl, h1, h2⟩ := ih
      refine ⟨Effect.callTool name args :: Effect.backendSend (some catalog) [] :: tl, ?_, ?_⟩
      · simp only [gemParts, hc]
        rw [h1]
        simp
      · simp [countListTools, h2]


theorem anthLoop_sends (host : Host) (ab : Nat → AnthResponse)
    (hh : ∀ n a, exceptOk (host.call n a) = true)
    (hb : ∀ i, 1 ≤ i → exceptOk ((ab i).firstText) = true)
    (blocks : List AnthBlock) (st : AnthSt) :
    1 ≤ st.k →
    countSends (anthLoop host ab blocks st).1.effects =
        countSends st.effects + countToolUses blocks ∧
      exceptOk ((anthLoop host ab blocks st).2) = true := by
  induction blocks, st using anthLoop.induct host ab with
  | case1 st =>
      intro _
      simp [anthLoop, countToolUses, exceptOk]
  | case2 s rest st ih =>
      intro hk
      simpa [anthLoop, countToolUses] using ih hk
  | case3 name args t? rest st e hc =>
      intro _
      have := hh name args
      rw [hc] at this
      simp [exceptOk] at this
  | case4 name args t? rest st res hc e hf =>
      intro hk
      have := hb st.k hk
      rw [hf] at this
      simp [exceptOk] at this
  | case5 name args t? rest st res hc newMsgs newFt newEff t hf ih =>
      intro hk
      have hrec := ih (Nat.succ_le_succ (Nat.zero_le st.k))
      simp only [anthLoop, hc, hf]
      refine ⟨?_, hrec.2⟩
      rw [hrec.1]
      unfold newEff
      simp [countSends_append, countSends, countToolUses]
      exact Nat.add_assoc _ 1 _

theorem anthLoop_allText (host : Host) (ab : Nat → AnthResponse)
    (blocks : List AnthBlock) (st : AnthSt) :
    countToolUses blocks = 0 →
    anthLoop host ab blocks st =
      ({ st with finalText := st.finalText ++ textsOf blocks }, Except.ok ()) := by
  induction blocks, st using anthLoop.induct host ab with
  | case1 st =>
      intro _
      simp [anthLoop, textsOf]
  | case2 s rest st ih =>
      intro h
      rw [countToolUses] at h
      simp only [anthLoop]
      rw [ih h]
      simp [textsOf]
  | case3 name args t? rest st e hc =>
      intro h
      simp [countToolUses] at h
  | case4 name args t? rest st res hc e hf =>
      intro h
      simp [countToolUses] at h
  | case5 name args t? rest st res hc newMsgs newFt newEff t hf ih =>
      intro h
      simp [countToolUses] at h


theorem anth_listTools_zero (host : Host) (ab : Nat → AnthResponse) (q : String) :
    countListTools (processWithAnthropic host ab q).effects = 0 := by
  obtain ⟨t, h1, h2, _⟩ := anthLoop_effects_extend host ab (ab 0).content
    { msgs := [{ role := "user", content := some q }], finalText := [], k := 1,
      effects := [.backendSend (some host.tools) [{ role := "user", content := some q }]] }
  simp only [processWithAnthropic]
  rw [h1, countListTools_append, h2]
  simp [countListTools]

theorem gem_listTools_zero (cfg : Config) (host : Host) (gb : Nat → GemResponse) (q : String) :
    countListTools (processWithGemini cfg host gb q).effects = 0 := by
  by_cases hk : cfg.geminiKey = true
  · obtain ⟨t, h1, h2⟩ := gemParts_effects_extend host gb host.tools
      (gemAllParts (gb 0).candidates)
      { finalText := [(gb 0).text], k := 1,
        effects := [.backendSend (some host.tools) []] }
    simp only [processWithGemini, hk, if_true]
    rw [h1, countListTools_append, h2]
    simp [countListTools]
  · simp only [Bool.not_eq_true] at hk
    simp [processWithGemini, hk, countListTools]

theorem or_listTools_zero (cfg : Config) (host : Host) (ob : Nat → ORResponse) (q : String) :
    countListTools (processWithOpenrouter cfg host ob q).effects = 0 := by
  by_cases hk : cfg.openrouterKey = true
  · simp only [processWithOpenrouter, hk, if_true]
    cases hch : (ob 0).choices.head? with
    | none => simp [countListTools]
    | some ch =>
        by_cases htc : ch.message.toolCalls.isEmpty = true
        · simp [htc, countListTools]
        · simp only [htc, Bool.false_eq_true, if_false]
          obtain ⟨t, h1, h2, _⟩ := orLoop_effects_extend host ob ch.message.content
            ch.message.toolCalls
            { msgs := [{ role := "user", content := some q }],
              finalText := [ch.message.content.getD ""], k := 1,
              effects := [.backendSend (some host.tools)
                [{ role := "user", content := some q }]] }
          rw [h1, countListTools_append, h2]
          simp [countListTools]
  · simp only [Bool.not_eq_true] at hk
    simp [processWithOpenrouter, hk, countListTools]

theorem processQuery_listTools_once (cfg : Config) (host : Host) (ab : Nat → AnthResponse)
    (gb : Nat → GemResponse) (ob : Nat → ORResponse) (q : String) :
    countListTools (processQuery cfg host ab gb ob q).effects = 1 := by
  have ha := anth_listTools_zero host ab q
  have hg := gem_listTools_zero cfg host gb q
  have ho := or_listTools_zero cfg host ob q
  by_cases h1 : (strStartsWith cfg.currentModel "anthropic/" ||
      strStartsWith cfg.currentModel "claude") = true
  · simp [processQuery, h1, countListTools, ha]
  · simp only [Bool.not_eq_true] at h1
    by_cases h2 : strStartsWith cfg.currentModel "gemini" = true
    · simp [processQuery, h1, h2, countListTools, hg]
    · simp only [Bool.not_eq_true] at h2
      by_cases h3 : (strStartsWith cfg.currentModel "openai/" ||
          strStartsWith cfg.currentModel "openrouter/") = true
      · simp [processQuery, h1, h2, h3, countListTools, ho]
      · simp only [Bool.not_eq_true] at h3
        simp [processQuery, h1, h2, h3, countListTools]


theorem reqCount_append (a b : List Msg) (c : String) :
    reqCount (a ++ b) c = reqCount a c + reqCount b c := by
  induction a with
  | nil => simp [reqCount]
  | cons m rest ih =>
      simp only [List.cons_append, reqCount, List.append_eq]
      omega

theorem resCount_append (a b : List Msg) (c : String) :
    resCount (a ++ b) c = resCount a c + resCount b c := by
  induction a with
  | nil => simp [resCount]
  | cons m rest ih =>
      simp only [List.cons_append, resCount, List.append_eq]
      omega

theorem plainMsg_user (s : Option String) :
    plainMsg { role := "user", content := s } := by
  refine ⟨rfl, ?_⟩
  show "user" ≠ "tool"
  decide

theorem plainMsg_assistant (s : Option String) :
    plainMsg { role := "assistant", content := s } := by
  refine ⟨rfl, ?_⟩
  show "assistant" ≠ "tool"
  decide

theorem sendBalanced_of_plain (msgs : List Msg) :
    (∀ m ∈ msgs, plainMsg m) → sendBalanced msgs := by
  induction msgs with
  | nil => intro _ c; simp [reqCount, resCount]
  | cons m rest ih =>
      intro h c
      have hm := h m (List.mem_cons_self m rest)
      have hrest := ih (fun x hx => h x (List.mem_cons_of_mem _ hx)) c
      simp only [reqCount, resCount, hm.1, tcCount]
      rw [if_neg (fun hab => hm.2 hab.1)]
      omega

theorem sendBalanced_append_pair (msgs : List Msg) (h : sendBalanced msgs)
    (fc : Option String) (tc : ToolCall) (res : String) :
    sendBalanced (msgs ++
      [{ role := "assistant", content := fc, toolCalls := [tc] },
       { role := "tool", content := some res, toolCallId := some tc.id }]) := by
  intro c
  rw [reqCount_append, resCount_append, h c]
  have hpair : reqCount
        [{ role := "assistant", content := fc, toolCalls := [tc] },
         { role := "tool", content := some res, toolCallId := some tc.id }] c =
      resCount
        [{ role := "assistant", content := fc, toolCalls := [tc] },
         { role := "tool", content := some res, toolCallId := some tc.id }] c := by
    simp only [reqCount, resCount, tcCount]
    by_cases htc : tc.id = c
    · simp [htc]
    · simp [htc]
  omega

theorem anthToolText_plain (t? : Option String) :
    ∀ m ∈ anthToolText t?, plainMsg m := by
  cases t? with
  | none => simp [anthToolText]
  | some t =>
      by_cases ht : t = ""
      · simp [anthToolText, ht]
      · intro m hm
        simp only [anthToolText, if_neg ht, List.mem_singleton] at hm
        subst hm
        exact plainMsg_assistant (some t)

theorem plain_extend (msgs : List Msg) (h : ∀ m ∈ msgs, plainMsg m)
    (t? : Option String) (c : String) :
    ∀ m ∈ msgs ++ anthToolText t? ++ [({ role := "user", content := some c } : Msg)],
      plainMsg m := by
  intro m hm
  rcases List.mem_append.mp hm with hm2 | hm2
  · rcases List.mem_append.mp hm2 with hm3 | hm3
    · exact h m hm3
    · exact anthToolText_plain t? m hm3
  · simp only [List.mem_singleton] at hm2
    subst hm2
    exact plainMsg_user (some c)

theorem sendOK_pairtail (prev : List Effect) (h2 : ∀ e ∈ prev, sendOK e)
    (name args : String) (msgs : List Msg) (hb : sendBalanced msgs) :
    ∀ e ∈ prev ++ [Effect.callTool name args, Effect.backendSend none msgs], sendOK e := by
  intro e he
  rcases List.mem_append.mp he with h | h
  · exact h2 e h
  · simp only [List.mem_cons, List.not_mem_nil, or_false] at h
    rcases h with h | h
    · subst h
      exact trivial
    · subst h
      exact hb

theorem anthLoop_sendOK (host : Host) (ab : Nat → AnthResponse)
    (blocks : List AnthBlock) (st : AnthSt) :
    (∀ m ∈ st.msgs, plainMsg m) → (∀ e ∈ st.effects, sendOK e) →
    ∀ e ∈ (anthLoop host ab blocks st).1.effects, sendOK e := by
  induction blocks, st using anthLoop.induct host ab with
  | case1 st =>
      intro _ h2
      simpa [anthLoop] using h2
  | case2 s rest st ih =>
      intro h1 h2
      simp only [anthLoop]
      exact ih h1 h2
  | case3 name args t? rest st e hc =>
      intro _ h2
      simp only [anthLoop, hc]
      intro e2 he2
      rcases List.mem_append.mp he2 with h | h
      · exact h2 e2 h
      · simp only [List.mem_singleton] at h
        subst h
        exact trivial
  | case4 name args t? rest st res hc e hf =>
      intro h1 h2
      simp only [anthLoop, hc, hf]
      exact sendOK_pairtail st.effects h2 name args _
        (sendBalanced_of_plain _ (plain_extend st.msgs h1 t? res.content))
  | case5 name args t? rest st res hc newMsgs newFt newEff t hf ih =>
      intro h1 h2
      have hplain : ∀ m ∈ newMsgs, plainMsg m :=
        plain_extend st.msgs h1 t? res.content
      have heff : ∀ e ∈ newEff, sendOK e :=
        sendOK_pairtail st.effects h2 name args _ (sendBalanced_of_plain _ hplain)
      simp only [anthLoop, hc, hf]
      exact ih hplain heff

theorem orLoop_sendOK (host : Host) (ob : Nat → ORResponse) (fc : Option String)
    (tcs : List ToolCall) (st : ORSt) :
    sendBalanced st.msgs → (∀ e ∈ st.effects, sendOK e) →
    ∀ e ∈ (orLoop host ob fc tcs st).1.effects, sendOK e := by
  induction tcs, st using orLoop.induct host ob fc with
  | case1 st =>
      intro _ h2
      simpa [orLoop] using h2
  | case2 tc rest st e hc =>
      intro _ h2
      simp only [orLoop, hc]
      intro e2 he2
      rcases List.mem_append.mp he2 with h | h
      · exact h2 e2 h
      · simp only [List.mem_singleton] at h
        subst h
        exact trivial
  | case3 tc rest st res hc newMsgs ft1 newEff r ft2 ih =>
      intro h1 h2
      have hbal : sendBalanced newMsgs :=
        sendBalanced_append_pair st.msgs h1 fc tc res.content
      have heff : ∀ e ∈ newEff, sendOK e :=
        sendOK_pairtail st.effects h2 tc.name tc.arguments _ hbal
      simp only [orLoop, hc]
      exact ih hbal heff

/-! ### Claim theorems -/

theorem anthLoop_head_callTool (host : Host) (ab : Nat → AnthResponse)
    (name args : String) (t? : Option String) (rest : List AnthBlock) (st : AnthSt) :
    Effect.callTool name args ∈
      (anthLoop host ab (AnthBlock.toolUse name args t? :: rest) st).1.effects := by
  cases hc : host.call name args with
  | error e => simp [anthLoop, hc]
  | ok res =>
      cases hf : (ab st.k).firstText with
      | error e => simp [anthLoop, hc, hf]
      | ok t =>
          simp only [anthLoop, hc, hf]
          obtain ⟨tl, h1, _, _⟩ := anthLoop_effects_extend host ab rest
            { msgs := st.msgs ++ anthToolText t? ++
                [{ role := "user", content := some res.content }],
              finalText := st.finalText ++
                ["[Calling tool " ++ name ++ " with args " ++ args ++ "]"] ++ [t],
              k := st.k + 1,
              effects := st.effects ++ [.callTool name args,
                .backendSend none (st.msgs ++ anthToolText t? ++
                  [{ role := "user", content := some res.content }])] }
          rw [h1]
          simp

theorem orLoop_effects_monotone (host : Host) (ob : Nat → ORResponse) (fc : Option String)
    (tcs : List ToolCall) (st : ORSt) (e : Effect) (h : e ∈ st.effects) :
    e ∈ (orLoop host ob fc tcs st).1.effects := by
  obtain ⟨tl, h1, _, _⟩ := orLoop_effects_extend host ob fc tcs st
  rw [h1]
  exact List.mem_append_left _ h

theorem sessionQueryEffects_count (cfg : Config) (host : Host) (ab : Nat → AnthResponse)
    (gb : Nat → GemResponse) (ob : Nat → ORResponse) (qs : List String) :
    countListTools (sessionQueryEffects cfg host ab gb ob qs) = qs.length := by
  induction qs with
  | nil => simp [sessionQueryEffects, countListTools]
  | cons q rest ih =>
      simp only [sessionQueryEffects, countListTools_append,
        processQuery_listTools_once, ih, List.length_cons]
      omega

/-- C1: whenever a request is about to be issued to a backend in the
anthropic or openrouter path, every tool-call request recorded in the
message list sent has exactly one matching tool-result turn. -/
theorem c1_requests_resolved_before_send (cfg : Config) (host : Host)
    (ab : Nat → AnthResponse) (ob : Nat → ORResponse) (q : String)
    (tls? : Option (List ToolDescr)) (msgs : List Msg)
    (hmem : Effect.backendSend tls? msgs ∈ (processWithAnthropic host ab q).effects ∨
      Effect.backendSend tls? msgs ∈ (processWithOpenrouter cfg host ob q).effects) :
    sendBalanced msgs := by
  have hplain0 : ∀ m ∈ [({ role := "user", content := some q } : Msg)], plainMsg m := by
    intro m hm
    simp only [List.mem_singleton] at hm
    subst hm
    exact plainMsg_user (some q)
  have hbal0 : sendBalanced [({ role := "user", content := some q } : Msg)] :=
    sendBalanced_of_plain _ hplain0
  have heff0 : ∀ e ∈ [Effect.backendSend (some host.tools)
      [({ role := "user", content := some q } : Msg)]], sendOK e := by
    intro e he
    simp only [List.mem_singleton] at he
    subst he
    exact hbal0
  rcases hmem with h | h
  · simp only [processWithAnthropic] at h
    exact anthLoop_sendOK host ab (ab 0).content
      { msgs := [{ role := "user", content := some q }], finalText := [], k := 1,
        effects := [.backendSend (some host.tools) [{ role := "user", content := some q }]] }
      hplain0 heff0 _ h
  · by_cases hk : cfg.openrouterKey = true
    · simp only [processWithOpenrouter, hk, if_true] at h
      cases hch : (ob 0).choices.head? with
      | none =>
          rw [hch] at h
          simp only [List.mem_singleton] at h
          rw [Effect.backendSend.injEq] at h
          rw [h.2]
          exact hbal0
      | some ch =>
          rw [hch] at h
          by_cases htc : ch.message.toolCalls.isEmpty = true
          · simp only [htc, if_true, List.mem_singleton] at h
            rw [Effect.backendSend.injEq] at h
            rw [h.2]
            exact hbal0
          · simp only [htc, Bool.false_eq_true, if_false] at h
            exact orLoop_sendOK host ob ch.message.content ch.message.toolCalls
              { msgs := [{ role := "user", content := some q }],
                finalText := [ch.message.content.getD ""], k := 1,
                effects := [.backendSend (some host.tools)
                  [{ role := "user", content := some q }]] }
              hbal0 heff0 _ h
    · simp only [Bool.not_eq_true] at hk
      simp [processWithOpenrouter, hk] at h

/-- C1 witness: a concrete openrouter follow-up request whose recorded
transcript holds one request and one matching result. -/
theorem c1_requests_resolved_before_send_witness :
    reqCount
        [{ role := "user", content := some "q" },
         { role := "assistant", content := some "",
           toolCalls := [{ id := "id1", name := "t", arguments := "a" }] },
         { role := "tool", content := some "hosted:t", toolCallId := some "id1" }] "id1" =
      resCount
        [{ role := "user", content := some "q" },
         { role := "assistant", content := some "",
           toolCalls := [{ id := "id1", name := "t", arguments := "a" }] },
         { role := "tool", content := some "hosted:t", toolCallId := some "id1" }] "id1" :=
  c1_requests_resolved_before_send cfgOR hostEcho abText4 obOneCall "q" none _
    (Or.inr (by decide)) "id1"


/-- C2 counterexample: with backends whose every response requests a tool,
`process_query` terminates after 2 (resp. 11) round-trips with an ordinary
answer — there is no 10-round-trip cap and no LoopExceeded report. -/
theorem c2_counterexample :
    countSends (processQuery cfgClaude hostEcho abAlwaysTool gbNone obNone "q").effects = 2 ∧
      countSends (processQuery cfgClaude hostEcho abAlwaysTool gbNone obNone "q").effects ≠ 10 ∧
      (processQuery cfgClaude hostEcho abAlwaysTool gbNone obNone "q").result =
        .ok "hi\n[Calling tool t with args a]\nhi" ∧
      countSends (processQuery cfgClaude hostEcho abManyTools gbNone obNone "q").effects = 11 := by
  decide

/-- C2 amended: the anthropic loop has no iteration cap; when every tool
call succeeds and every follow-up response starts with a text block, it
issues exactly `1 + k` round-trips where `k` is the number of tool_use
blocks in the FIRST response (later responses' tool calls are ignored),
and returns normally. -/
theorem c2_round_trips_first_response (host : Host) (ab : Nat → AnthResponse) (q : String)
    (hh : ∀ n a, exceptOk (host.call n a) = true)
    (hb : ∀ i, 1 ≤ i → exceptOk ((ab i).firstText) = true) :
    countSends (processWithAnthropic host ab q).effects = 1 + countToolUses (ab 0).content ∧
      exceptOk (processWithAnthropic host ab q).result = true := by
  obtain ⟨hcount, hok⟩ := anthLoop_sends host ab hh hb (ab 0).content
    { msgs := [{ role := "user", content := some q }], finalText := [], k := 1,
      effects := [.backendSend (some host.tools) [{ role := "user", content := some q }]] }
    (Nat.le_refl 1)
  constructor
  · simp only [processWithAnthropic]
    rw [hcount]
    simp [countSends]
  · simp only [processWithAnthropic]
    cases hr : (anthLoop host ab (ab 0).content
        { msgs := [{ role := "user", content := some q }], finalText := [], k := 1,
          effects := [.backendSend (some host.tools)
            [{ role := "user", content := some q }]] }).2 with
    | ok u => simp [hr, exceptOk]
    | error e =>
        rw [hr] at hok
        simp [exceptOk] at hok

/-- C2 witness: a backend always answering with a text and a tool_use
block makes exactly two round-trips. -/
theorem c2_round_trips_first_response_witness :
    countSends (processWithAnthropic hostEcho abAlwaysTool "q").effects =
        1 + countToolUses (abAlwaysTool 0).content ∧
      exceptOk (processWithAnthropic hostEcho abAlwaysTool "q").result = true :=
  c2_round_trips_first_response hostEcho abAlwaysTool "q"
    (fun _ _ => rfl) (fun _ _ => rfl)

/-- C3 counterexample: the tool `mystery` is absent from the catalog, yet
the tool host IS contacted and no failed `unknown tool` result exists. -/
theorem c3_counterexample :
    "mystery" ∉ hostEcho.tools.map ToolDescr.name ∧
      Effect.callTool "mystery" "a" ∈
        (processQuery cfgClaude hostEcho abMystery gbNone obNone "q").effects ∧
      (processQuery cfgClaude hostEcho abMystery gbNone obNone "q").result =
        .ok "[Calling tool mystery with args a]\ndone" := by
  decide

/-- C3 amended: no catalog lookup precedes dispatch — a tool name requested
by the backend is forwarded to the tool host via `call_tool` even when it
is absent from the listed catalog, in the anthropic and openrouter paths. -/
theorem c3_no_catalog_check (cfg : Config) (host : Host) (ab : Nat → AnthResponse)
    (gb : Nat → GemResponse) (ob : Nat → ORResponse) (q : String)
    (name args : String) (t? : Option String) (tc : ToolCall) (tcs : List ToolCall)
    (ch : ORChoice)
    (hname : name ∉ host.tools.map ToolDescr.name)
    (hm : strStartsWith cfg.currentModel "claude" = true)
    (hhead : (ab 0).content.head? = some (.toolUse name args t?)) :
    Effect.callTool name args ∈ (processQuery cfg host ab gb ob q).effects ∧
      (cfg.openrouterKey = true → (ob 0).choices.head? = some ch →
        ch.message.toolCalls = tc :: tcs →
        Effect.callTool tc.name tc.arguments ∈
          (processWithOpenrouter cfg host ob q).effects) := by
  constructor
  · cases hcon : (ab 0).content with
    | nil =>
        rw [hcon] at hhead
        simp at hhead
    | cons b rest =>
        rw [hcon] at hhead
        simp only [List.head?_cons, Option.some.injEq] at hhead
        subst hhead
        simp only [processQuery, hm, Bool.or_true, if_true]
        refine List.mem_cons_of_mem _ ?_
        simp only [processWithAnthropic]
        rw [hcon]
        exact anthLoop_head_callTool host ab name args t? rest _
  · intro hk hch htc
    simp only [processWithOpenrouter, hk, if_true]
    rw [hch]
    simp only [htc, List.isEmpty_cons, Bool.false_eq_true, if_false]
    cases hc : host.call tc.name tc.arguments with
    | error e => simp [orLoop, hc]
    | ok res =>
        simp only [orLoop, hc]
        apply orLoop_effects_monotone
        simp

/-- C3 witness: concrete runs in which an uncatalogued tool is forwarded
to the host in both paths. -/
theorem c3_no_catalog_check_witness :
    Effect.callTool "mystery" "a" ∈
        (processQuery cfgClaudeOR hostEcho abMystery gbNone obOneCall "q").effects ∧
      Effect.callTool "t" "a" ∈
        (processWithOpenrouter cfgClaudeOR hostEcho obOneCall "q").effects :=
  ⟨(c3_no_catalog_check cfgClaudeOR hostEcho abMystery gbNone obOneCall "q"
      "mystery" "a" none ⟨"id1", "t", "a"⟩ [] ⟨⟨some "", [⟨"id1", "t", "a"⟩]⟩⟩
      (by decide) (by decide) rfl).1,
   (c3_no_catalog_check cfgClaudeOR hostEcho abMystery gbNone obOneCall "q"
      "mystery" "a" none ⟨"id1", "t", "a"⟩ [] ⟨⟨some "", [⟨"id1", "t", "a"⟩]⟩⟩
      (by decide) (by decide) rfl).2 rfl rfl rfl⟩


/-- C4 counterexample: a raised tool-call failure propagates out of
`process_query` as an exception; no failed ToolCallResult is folded into
the message list (which still holds only the user turn). -/
theorem c4_counterexample :
    (processQuery cfgClaude hostRaise abMystery gbNone obNone "q").result =
        .error "boom" ∧
      (processQuery cfgClaude hostRaise abMystery gbNone obNone "q").msgs =
        [{ role := "user", content := some "q" }] := by
  decide

/-- C4 amended: a tool-call exception in the anthropic path escapes
`process_query` unchanged; only `chat_loop`'s top-level handler turns it
into an `Error:` line. -/
theorem c4_tool_failure_propagates (cfg : Config) (host : Host) (ab : Nat → AnthResponse)
    (gb : Nat → GemResponse) (ob : Nat → ORResponse) (q : String)
    (name args : String) (t? : Option String) (e : String)
    (hm : strStartsWith cfg.currentModel "claude" = true)
    (hhead : (ab 0).content.head? = some (.toolUse name args t?))
    (hc : host.call name args = .error e) :
    (processQuery cfg host ab gb ob q).result = .error e ∧
      (processQuery cfg host ab gb ob q).msgs =
        [{ role := "user", content := some q }] ∧
      chatRespond cfg host ab gb ob q = "\nError: " ++ e := by
  cases hcon : (ab 0).content with
  | nil =>
      rw [hcon] at hhead
      simp at hhead
  | cons b rest =>
      rw [hcon] at hhead
      simp only [List.head?_cons, Option.some.injEq] at hhead
      subst hhead
      have hq : processQuery cfg host ab gb ob q =
          { result := .error e,
            msgs := [{ role := "user", content := some q }],
            effects := [Effect.listTools,
              .backendSend (some host.tools) [{ role := "user", content := some q }],
              .callTool name args] } := by
        simp [processQuery, hm, processWithAnthropic, hcon, anthLoop, hc]
      refine ⟨by rw [hq], by rw [hq], ?_⟩
      rw [chatRespond, hq]

/-- C4 witness: the concrete raising host. -/
theorem c4_tool_failure_propagates_witness :
    (processQuery cfgClaude hostRaise abMystery gbNone obNone "q").result =
        .error "boom" ∧
      (processQuery cfgClaude hostRaise abMystery gbNone obNone "q").msgs =
        [{ role := "user", content := some "q" }] ∧
      chatRespond cfgClaude hostRaise abMystery gbNone obNone "q" = "\nError: " ++ "boom" :=
  c4_tool_failure_propagates cfgClaude hostRaise abMystery gbNone obNone "q"
    "mystery" "a" none "boom" (by decide) rfl rfl

/-- C5 counterexample: with no anthropic credential configured, the
anthropic path still issues a backend request and returns normally — no
synchronous BackendAuthError. -/
theorem c5_counterexample :
    cfgClaude.anthropicKey = false ∧
      countSends (processQuery cfgClaude hostEcho abText4 gbNone obNone "hello").effects = 1 ∧
      (processQuery cfgClaude hostEcho abText4 gbNone obNone "hello").result = .ok "4" := by
  decide

/-- C5 amended: the gemini and openrouter paths return their
`not configured` message synchronously, issuing no backend request, when
their key is missing; the anthropic path performs no credential check —
its behaviour is independent of `anthropicKey` and it always issues at
least one backend request. -/
theorem c5_auth_check_coverage (cfg : Config) (host : Host) (ab : Nat → AnthResponse)
    (gb : Nat → GemResponse) (ob : Nat → ORResponse) (q : String) (b : Bool) :
    (strStartsWith cfg.currentModel "anthropic/" = false →
      strStartsWith cfg.currentModel "claude" = false →
      strStartsWith cfg.currentModel "gemini" = true →
      cfg.geminiKey = false →
      (processQuery cfg host ab gb ob q).result =
          .ok "Gemini API key not configured. Please set GEMINI_API_KEY in your .env file." ∧
        countSends (processQuery cfg host ab gb ob q).effects = 0) ∧
    (strStartsWith cfg.currentModel "anthropic/" = false →
      strStartsWith cfg.currentModel "claude" = false →
      strStartsWith cfg.currentModel "gemini" = false →
      strStartsWith cfg.currentModel "openai/" = true →
      cfg.openrouterKey = false →
      (processQuery cfg host ab gb ob q).result =
          .ok "OpenRouter API key not configured. Please set OPENROUTER_API_KEY in your .env file." ∧
        countSends (processQuery cfg host ab gb ob q).effects = 0) ∧
    processQuery { cfg with anthropicKey := b } host ab gb ob q =
        processQuery cfg host ab gb ob q ∧
    (strStartsWith cfg.currentModel "claude" = true →
      1 ≤ countSends (processQuery cfg host ab gb ob q).effects) := by
  refine ⟨?_, ?_, ?_, ?_⟩
  · intro h1 h2 h3 hkey
    constructor
    · simp [processQuery, h1, h2, h3, processWithGemini, hkey]
    · simp [processQuery, h1, h2, h3, processWithGemini, hkey, countSends]
  · intro h1 h2 h3 h4 hkey
    constructor
    · simp [processQuery, h1, h2, h3, h4, processWithOpenrouter, hkey]
    · simp [processQuery, h1, h2, h3, h4, processWithOpenrouter, hkey, countSends]
  · rfl
  · intro hm
    obtain ⟨tl, h1, _, _⟩ := anthLoop_effects_extend host ab (ab 0).content
      { msgs := [{ role := "user", content := some q }], finalText := [], k := 1,
        effects := [.backendSend (some host.tools) [{ role := "user", content := some q }]] }
    have e3 : (processQuery cfg host ab gb ob q).effects =
        Effect.listTools :: (processWithAnthropic host ab q).effects := by
      simp [processQuery, hm]
    have e2 : countSends (Effect.listTools :: (processWithAnthropic host ab q).effects) =
        countSends (processWithAnthropic host ab q).effects := rfl
    rw [e3, e2]
    simp only [processWithAnthropic]
    rw [h1, countSends_append]
    simp [countSends]

/-- C5 witness: concrete instances for all four parts. -/
theorem c5_auth_check_coverage_witness :
    ((processQuery cfgGemNoKey hostEcho abText4 gbNone obNone "q").result =
          .ok "Gemini API key not configured. Please set GEMINI_API_KEY in your .env file." ∧
        countSends (processQuery cfgGemNoKey hostEcho abText4 gbNone obNone "q").effects = 0) ∧
      ((processQuery cfgORNoKey hostEcho abText4 gbNone obNone "q").result =
          .ok "OpenRouter API key not configured. Please set OPENROUTER_API_KEY in your .env file." ∧
        countSends (processQuery cfgORNoKey hostEcho abText4 gbNone obNone "q").effects = 0) ∧
      processQuery { cfgClaude with anthropicKey := true } hostEcho abText4 gbNone obNone "q" =
        processQuery cfgClaude hostEcho abText4 gbNone obNone "q" ∧
      1 ≤ countSends (processQuery cfgClaude hostEcho abText4 gbNone obNone "q").effects :=
  ⟨(c5_auth_check_coverage cfgGemNoKey hostEcho abText4 gbNone obNone "q" true).1
      (by decide) (by decide) (by decide) rfl,
   (c5_auth_check_coverage cfgORNoKey hostEcho abText4 gbNone obNone "q" true).2.1
      (by decide) (by decide) (by decide) (by decide) rfl,
   (c5_auth_check_coverage cfgClaude hostEcho abText4 gbNone obNone "q" true).2.2.1,
   (c5_auth_check_coverage cfgClaude hostEcho abText4 gbNone obNone "q" true).2.2.2
      (by decide)⟩

/-- C6 counterexample: over a session with two queries the catalog is
fetched three times (once at connect, once per query), not once. -/
theorem c6_counterexample :
    countListTools (sessionEffects cfgClaude hostEcho abText4 gbNone obNone ["q1", "q2"]) = 3 ∧
      countListTools (sessionEffects cfgClaude hostEcho abText4 gbNone obNone ["q1", "q2"]) ≠ 1 := by
  decide

/-- C6 amended: the catalog is fetched once at connect and once more at
the start of EVERY query; within one anthropic query only the initial
backend request carries the catalog (follow-up requests carry none). -/
theorem c6_catalog_per_query (cfg : Config) (host : Host) (ab : Nat → AnthResponse)
    (gb : Nat → GemResponse) (ob : Nat → ORResponse) (qs : List String) (q : String)
    (tls : List ToolDescr) (msgs : List Msg) :
    countListTools (sessionEffects cfg host ab gb ob qs) = 1 + qs.length ∧
      (Effect.backendSend (some tls) msgs ∈ (processWithAnthropic host ab q).effects →
        tls = host.tools ∧ msgs = [{ role := "user", content := some q }]) := by
  constructor
  · simp [sessionEffects, countListTools, sessionQueryEffects_count]
  · intro hmem
    simp only [processWithAnthropic] at hmem
    obtain ⟨tl, h1, _, h3⟩ := anthLoop_effects_extend host ab (ab 0).content
      { msgs := [{ role := "user", content := some q }], finalText := [], k := 1,
        effects := [.backendSend (some host.tools) [{ role := "user", content := some q }]] }
    rw [h1] at hmem
    rcases List.mem_append.mp hmem with h | h
    · simp only [List.mem_singleton] at h
      rw [Effect.backendSend.injEq, Option.some.injEq] at h
      exact h
    · exact absurd h (h3 tls msgs)

/-- C6 witness: three fetches over two queries; the only catalog-carrying
request is the initial one. -/
theorem c6_catalog_per_query_witness :
    countListTools (sessionEffects cfgClaude hostEcho abAlwaysTool gbNone obNone
        ["q1", "q2"]) = 3 ∧
      (hostEcho.tools = hostEcho.tools ∧
        ([{ role := "user", content := some "q" }] : List Msg) =
          [{ role := "user", content := some "q" }]) :=
  ⟨(c6_catalog_per_query cfgClaude hostEcho abAlwaysTool gbNone obNone ["q1", "q2"] "q"
      hostEcho.tools [{ role := "user", content := some "q" }]).1,
   (c6_catalog_per_query cfgClaude hostEcho abAlwaysTool gbNone obNone ["q1", "q2"] "q"
      hostEcho.tools [{ role := "user", content := some "q" }]).2 (by decide)⟩


/-- C7 counterexample: in the scenario of the claim the anthropic path
returns the tool-trace line prepended to the final text, and the message
list holds 2 turns, not 4. -/
theorem c7_counterexample :
    ¬((processQuery cfgClaude host42 abScenario2 gbNone obNone "question").result =
          .ok "The answer is 42" ∧
        (processQuery cfgClaude host42 abScenario2 gbNone obNone "question").msgs.length = 4) := by
  decide

/-- C7 amended: the scenario returns the bracketed tool-call trace line,
a newline, then the final text; the message list holds exactly 2 turns —
the user query and a user-role turn carrying the tool output (the
assistant tool-call turn is not recorded, and the result is recorded with
role `user`). -/
theorem c7_scenario2_actual :
    (processQuery cfgClaude host42 abScenario2 gbNone obNone "question").result =
        .ok "[Calling tool lookup with args qx]\nThe answer is 42" ∧
      (processQuery cfgClaude host42 abScenario2 gbNone obNone "question").msgs =
        [{ role := "user", content := some "question" },
         { role := "user", content := some "42" }] := by
  decide

/-- C8 counterexample: a response with two text segments and no tool calls
yields the newline-join `a\nb`, not the concatenation `ab`. -/
theorem c8_counterexample :
    countToolUses ((abTexts 0).content) = 0 ∧
      (processQuery cfgClaude hostEcho abTexts gbNone obNone "q").result ≠ .ok "ab" ∧
      (processQuery cfgClaude hostEcho abTexts gbNone obNone "q").result = .ok "a\nb" := by
  decide

/-- C8 amended: a first response with no tool-call segments ends the loop
after that single round-trip, returning its text segments joined with
newlines (anthropic) resp. its first choice content (openrouter); with a
single text segment this is that segment itself. -/
theorem c8_no_toolcalls_direct_answer (cfg : Config) (host : Host)
    (ab : Nat → AnthResponse) (ob : Nat → ORResponse) (q : String) (ch : ORChoice) :
    (countToolUses (ab 0).content = 0 →
        (processWithAnthropic host ab q).result =
            .ok (String.intercalate "\n" (textsOf (ab 0).content)) ∧
          countSends (processWithAnthropic host ab q).effects = 1) ∧
      (cfg.openrouterKey = true → (ob 0).choices.head? = some ch →
        ch.message.toolCalls = [] →
        (processWithOpenrouter cfg host ob q).result = .ok (ch.message.content.getD "") ∧
          countSends (processWithOpenrouter cfg host ob q).effects = 1) := by
  constructor
  · intro h
    have hloop := anthLoop_allText host ab (ab 0).content
      { msgs := [{ role := "user", content := some q }], finalText := [], k := 1,
        effects := [.backendSend (some host.tools) [{ role := "user", content := some q }]] }
      h
    constructor
    · simp [processWithAnthropic, hloop]
    · simp [processWithAnthropic, hloop, countSends]
  · intro hk hch htc
    have hsingle : String.intercalate "\n" [ch.message.content.getD ""] =
        ch.message.content.getD "" := rfl
    constructor
    · simp [processWithOpenrouter, hk, hch, htc, hsingle]
    · simp [processWithOpenrouter, hk, hch, htc, countSends]

/-- C8 witness: scenario 1 — a single text segment `4` with no tool
calls yields final answer `4` in one round-trip, in both paths. -/
theorem c8_no_toolcalls_direct_answer_witness :
    ((processWithAnthropic hostEcho abText4 "What is 2+2?").result = .ok "4" ∧
        countSends (processWithAnthropic hostEcho abText4 "What is 2+2?").effects = 1) ∧
      ((processWithOpenrouter cfgOR hostEcho obText4 "What is 2+2?").result = .ok "4" ∧
        countSends (processWithOpenrouter cfgOR hostEcho obText4 "What is 2+2?").effects = 1) := by
  have h1 := (c8_no_toolcalls_direct_answer cfgOR hostEcho abText4 obText4 "What is 2+2?"
    ⟨⟨some "4", []⟩⟩).1 (by decide)
  have h2 := (c8_no_toolcalls_direct_answer cfgOR hostEcho abText4 obText4 "What is 2+2?"
    ⟨⟨some "4", []⟩⟩).2 rfl rfl rfl
  exact ⟨⟨h1.1, h1.2⟩, ⟨h2.1, h2.2⟩⟩

/-- C9: response normalization is deterministic in all three provider
parsing paths — equal native responses yield equal segment sequences. -/
theorem c9_normalize_deterministic (ra ra2 : AnthResponse) (ro ro2 : ORResponse)
    (rg rg2 : GemResponse) (ha : ra = ra2) (ho : ro = ro2) (hg : rg = rg2) :
    normalizeAnthropic ra = normalizeAnthropic ra2 ∧
      normalizeOpenrouter ro = normalizeOpenrouter ro2 ∧
      normalizeGemini rg = normalizeGemini rg2 :=
  ⟨congrArg normalizeAnthropic ha, congrArg normalizeOpenrouter ho,
   congrArg normalizeGemini hg⟩

/-- C9 witness: concrete responses normalized twice. -/
theorem c9_normalize_deterministic_witness :
    normalizeAnthropic (abAlwaysTool 0) = normalizeAnthropic (abAlwaysTool 0) ∧
      normalizeOpenrouter (obOneCall 0) = normalizeOpenrouter (obOneCall 0) ∧
      normalizeGemini (gbNone 0) = normalizeGemini (gbNone 0) :=
  c9_normalize_deterministic (abAlwaysTool 0) (abAlwaysTool 0) (obOneCall 0) (obOneCall 0)
    (gbNone 0) (gbNone 0) rfl rfl rfl

/-- C10: a model string matching none of the five provider prefixes makes
`process_query` return the `Unknown model provider` message, with no
backend request and no tool invocation. -/
theorem c10_unknown_provider (cfg : Config) (host : Host) (ab : Nat → AnthResponse)
    (gb : Nat → GemResponse) (ob : Nat → ORResponse) (q : String)
    (h1 : strStartsWith cfg.currentModel "anthropic/" = false)
    (h2 : strStartsWith cfg.currentModel "claude" = false)
    (h3 : strStartsWith cfg.currentModel "gemini" = false)
    (h4 : strStartsWith cfg.currentModel "openai/" = false)
    (h5 : strStartsWith cfg.currentModel "openrouter/" = false) :
    (processQuery cfg host ab gb ob q).result =
        .ok ("Unknown model provider for: " ++ cfg.currentModel) ∧
      countSends (processQuery cfg host ab gb ob q).effects = 0 ∧
      countToolCalls (processQuery cfg host ab gb ob q).effects = 0 := by
  refine ⟨?_, ?_, ?_⟩
  · simp [processQuery, h1, h2, h3, h4, h5]
  · simp [processQuery, h1, h2, h3, h4, h5, countSends]
  · simp [processQuery, h1, h2, h3, h4, h5, countToolCalls]

/-- C10 witness: the model string `mistral-7b`. -/
theorem c10_unknown_provider_witness :
    (processQuery cfgUnknown hostEcho abText4 gbNone obNone "hi").result =
        .ok ("Unknown model provider for: " ++ cfgUnknown.currentModel) ∧
      countSends (processQuery cfgUnknown hostEcho abText4 gbNone obNone "hi").effects = 0 ∧
      countToolCalls (processQuery cfgUnknown hostEcho abText4 gbNone obNone "hi").effects = 0 :=
  c10_unknown_provider cfgUnknown hostEcho abText4 gbNone obNone "hi"
    (by decide) (by decide) (by decide) (by decide) (by decide)

end Kosh
